import Mathlib

/-!
Verification of the `dfcloud` job entrypoint (`deepfabric-job/entrypoint.py`).

Python strings are modelled as `String` or `List Char` (Python `len` counts
code points, matching `List.length` on the character list); Python `dict`s
coming from JSON/YAML are modelled as ordered association lists; Python's
`None`-or-value results are modelled with `Option`; a Python exception
escaping a modelled function is modelled as `Option.none` at the function's
result type.  Wall-clock instants (Python `time.time()` floats) are modelled
as rationals.
-/

set_option autoImplicit false
set_option maxHeartbeats 1000000

namespace DFCloud

/-! ### Basic string machinery (Python `in`, `str.lower`, `\s`, `\d`) -/

/-- `startsWithL p l` is true when `p` is a prefix of `l` (character lists). -/
def startsWithL : List Char → List Char → Bool
  | [], _ => true
  | _ :: _, [] => false
  | a :: as, b :: bs => a == b && startsWithL as bs

/-- Python's substring test `needle in hay`, on character lists.
`containsSub [] l = true`, matching Python's `"" in s`. -/
def containsSub (needle : List Char) : List Char → Bool
  | [] => needle.isEmpty
  | c :: rest => startsWithL needle (c :: rest) || containsSub needle rest

/-- Python's `needle in hay` on `String`s. -/
def containsSubStr (needle hay : String) : Bool :=
  containsSub needle.toList hay.toList

/-- ASCII lowering, the fragment of Python `str.lower` the log lines use. -/
def pyLowerChar (c : Char) : Char :=
  if 'A' ≤ c ∧ c ≤ 'Z' then Char.ofNat (c.toNat + 32) else c

/-- The ASCII whitespace class of Python's regex `\s`
(space, tab, newline, carriage return, vertical tab, form feed). -/
def isPySpace (c : Char) : Bool :=
  c == ' ' || c == '\t' || c == '\n' || c == '\r' || c == '\x0b' || c == '\x0c'

/-- Numeric value of an ASCII digit string, as Python's `int` on a `\d+` capture. -/
def natOfDigits (ds : List Char) : Nat :=
  ds.foldl (fun n c => 10 * n + (c.toNat - 48)) 0

/-! ### JSON value model

`JVal` models the JSON/YAML values flowing through the entrypoint.  Numbers
are restricted to integers (no claim involves floats).  Objects are ordered
association lists, mirroring Python's insertion-ordered `dict`s. -/

inductive JVal where
  | null
  | bool (b : Bool)
  | num (n : Int)
  | str (s : String)
  | arr (xs : List JVal)
  | obj (fields : List (String × JVal))

/-- Python `d.get(k)` on the modelled dict: the value at the first matching
key, if any (keys produced by `json.loads`/`yaml.safe_load` are unique). -/
def jget (fields : List (String × JVal)) (k : String) : Option JVal :=
  (fields.find? (fun p => p.1 == k)).map (fun p => p.2)

/-- Python truthiness of a `JVal` (`if v:`). -/
def pyTruthy : JVal → Bool
  | .null => false
  | .bool b => b
  | .num n => n != 0
  | .str s => s != ""
  | .arr xs => !xs.isEmpty
  | .obj fs => !fs.isEmpty

/-- Python `d[k] = v` on an insertion-ordered dict: replace the value at an
existing key in place, otherwise append the new binding. -/
def dictSet : List (String × JVal) → String → JVal → List (String × JVal)
  | [], k, v => [(k, v)]
  | (k1, v1) :: rest, k, v =>
      if k1 == k then (k1, v) :: rest else (k1, v1) :: dictSet rest k v

/-- The string key a `JVal` becomes when used as a Python dict key and then
serialized by `json.dumps` (`True` ↦ `"true"`, `7` ↦ `"7"`, ...).  Arrays and
objects are unhashable in Python; callers treat them as an error before
reaching this function. -/
def pyKeyStr : JVal → String
  | .str s => s
  | .num n => toString n
  | .bool true => "true"
  | .bool false => "false"
  | .null => "null"
  | .arr _ => ""
  | .obj _ => ""

/-! ### `transform_tools_response` (entrypoint.py lines 40–79) -/

/-- Outcome of one iteration of the parameter loop (lines 53–64):
the parameter is skipped, raises, or contributes a property (dict key,
property object, the raw name appended to `required`, and the required flag). -/
inductive ParamOutcome where
  | skipped
  | raised
  | kept (key : String) (prop : JVal) (rawName : JVal) (requiredFlag : Bool)

/-- Python `param.get("default") is not None and param.get("default") != ""`,
given that the key is present with value `v`. -/
def defaultIncluded : JVal → Bool
  | .null => false
  | .str s => s != ""
  | _ => true

/-- The property object built for one parameter (lines 57–61):
`{"type": ...}`, plus `description` when truthy, plus `default` when present,
non-`None` and not the empty string. -/
def buildProp (pf : List (String × JVal)) : JVal :=
  let ty := (jget pf "type").getD (JVal.str "string")
  let withDesc :=
    match jget pf "description" with
    | some d => if pyTruthy d then [("description", d)] else []
    | none => []
  let withDefault :=
    match jget pf "default" with
    | some v => if defaultIncluded v then [("default", v)] else []
    | none => []
  JVal.obj ([("type", ty)] ++ withDesc ++ withDefault)

/-- One iteration of the parameter loop (lines 53–64): a falsy `name`
(missing, empty string, `None`, `0`, `False`, ...) skips the entry; an
unhashable name (list/object) would raise `TypeError` when used as a dict
key. -/
def paramOutcome (pf : List (String × JVal)) : ParamOutcome :=
  let pname := (jget pf "name").getD (JVal.str "")
  if pyTruthy pname then
    match pname with
    | .arr _ => .raised
    | .obj _ => .raised
    | _ =>
        .kept (pyKeyStr pname) (buildProp pf) pname
          (pyTruthy ((jget pf "required").getD (JVal.bool false)))
  else .skipped

/-- The parameter loop of lines 51–64: builds `properties` (a dict, written
with `dictSet`) and `required` (a plain list).  `none` models a Python
exception (a non-dict parameter, or an unhashable name). -/
def convertParamsAux (props : List (String × JVal)) (reqs : List JVal) :
    List JVal → Option (List (String × JVal) × List JVal)
  | [] => some (props, reqs)
  | .obj pf :: rest =>
      match paramOutcome pf with
      | .skipped => convertParamsAux props reqs rest
      | .raised => none
      | .kept key prop rawName requiredFlag =>
          convertParamsAux (dictSet props key prop)
            (if requiredFlag then reqs ++ [rawName] else reqs) rest
  | _ :: _ => none

/-- The list-form `inputSchema` conversion starting from the empty
accumulators (lines 51–64). -/
def convertParams (params : List JVal) :
    Option (List (String × JVal) × List JVal) :=
  convertParamsAux [] [] params

/-- The JSON-Schema object assembled at lines 66–71: `type`/`properties`
always, `required` only when non-empty. -/
def assembleSchema (props : List (String × JVal)) (reqs : List JVal) : JVal :=
  JVal.obj ([("type", JVal.str "object"), ("properties", JVal.obj props)] ++
    (if reqs.isEmpty then [] else [("required", JVal.arr reqs)]))

/-- One tool's transformation (lines 46–77).  A tool that is not a dict makes
`tool.get` raise (`none`).  Iterating a non-list `inputSchema` value is left
in object/pass-through form exactly as the code does: only a `list` value
enters the conversion branch. -/
def transformTool (tool : JVal) : Option JVal :=
  match tool with
  | .obj tf =>
      let ischema := (jget tf "inputSchema").getD (JVal.obj [])
      let schemaOut : Option JVal :=
        match ischema with
        | .arr params =>
            match convertParams params with
            | some (props, reqs) => some (assembleSchema props reqs)
            | none => none
        | other => some other
      match schemaOut with
      | some schema =>
          some (JVal.obj
            [("name", (jget tf "name").getD (JVal.str "")),
             ("description", (jget tf "description").getD (JVal.str "")),
             ("inputSchema", schema)])
      | none => none
  | _ => none

/-- `transform_tools_response` (lines 40–79).  `none` models a Python
exception escaping the function.  Non-dict top-level values follow Python's
`"tools" not in data` semantics: membership test on lists, substring test on
strings, `TypeError` on numbers/booleans/`None`.  A non-list `data["tools"]`
raises on iteration or on `tool.get`, except the empty dict and the empty
string, which iterate zero times and yield `{"tools": []}`. -/
def transform_tools_response : JVal → Option JVal
  | .obj fs =>
      match jget fs "tools" with
      | none => some (JVal.obj fs)
      | some (.arr ts) =>
          (ts.mapM transformTool).map (fun l => JVal.obj [("tools", JVal.arr l)])
      | some (.obj ofs) =>
          if ofs.isEmpty then some (JVal.obj [("tools", JVal.arr [])]) else none
      | some (.str s) =>
          if s == "" then some (JVal.obj [("tools", JVal.arr [])]) else none
      | some _ => none
  | .arr xs =>
      if xs.any (fun v => match v with | .str s => s == "tools" | _ => false)
        then none else some (JVal.arr xs)
  | .str s => if containsSubStr "tools" s then none else some (JVal.str s)
  | _ => none

/-! ### Response relay of `AuthProxyHandler._proxy_request` (lines 118–140)

The body is kept abstract (`β`): the transform step is a parameter, since a
non-listing path never invokes it.  `BackendResult.ok` is the
`urllib.request.urlopen` success branch, `BackendResult.httpError` the
`urllib.error.HTTPError` branch, which relays `e.code` and `e.read()`. -/

inductive BackendResult (β : Type) where
  | ok (status : Nat) (body : β)
  | httpError (status : Nat) (body : β)

/-- Status of a backend result. -/
def BackendResult.status {β : Type} : BackendResult β → Nat
  | .ok s _ => s
  | .httpError s _ => s

/-- Body of a backend result. -/
def BackendResult.body {β : Type} : BackendResult β → β
  | .ok _ b => b
  | .httpError _ b => b

/-- The (status, body) the proxy sends back for a backend response (lines
118–140): on the success branch, a path containing `/list-tools` gets the
tools transform applied when it succeeds (`try/except` keeps the original
body on failure); every other case relays status and body untouched. -/
def proxyRelay {β : Type} (path : String) (tryTransform : β → Option β) :
    BackendResult β → Nat × β
  | .ok status body =>
      if containsSubStr "/list-tools" path then
        match tryTransform body with
        | some b2 => (status, b2)
        | none => (status, body)
      else (status, body)
  | .httpError status body => (status, body)

/-! ### Token refresh in `_proxy_request` (lines 92–114)

`TokenState` is the pair of module globals `_auth_token` /
`_token_obtained_at`.  The refresh attempt's outcome
(`get_identity_token`'s network result) is passed in as `fetched`. -/

/-- The module globals `_auth_token` and `_token_obtained_at`. -/
structure TokenState where
  value : String
  obtainedAt : ℚ
deriving DecidableEq

/-- `TOKEN_REFRESH_INTERVAL = 45 * 60` (line 37), in seconds. -/
def TOKEN_REFRESH_INTERVAL : ℚ := 45 * 60

/-- Lines 95–104: under the lock, when the token is older than
`TOKEN_REFRESH_INTERVAL`, attempt a fetch; on success overwrite both
globals, on failure (`fetched = none`) leave both untouched.  The boolean
reports whether a fetch was attempted. -/
def proxyTokenRefresh (st : TokenState) (now : ℚ) (fetched : Option String) :
    TokenState × Bool :=
  if TOKEN_REFRESH_INTERVAL < now - st.obtainedAt then
    match fetched with
    | some t => ({ value := t, obtainedAt := now }, true)
    | none => (st, true)
  else (st, false)

/-- The token placed in the `Authorization` header at line 114: the value of
`_auth_token` after the refresh block. -/
def proxyAuthToken (st : TokenState) (now : ℚ) (fetched : Option String) : String :=
  ((proxyTokenRefresh st now fetched).1).value

/-! ### Lock/I/O trace of `_proxy_request` (lines 91–136)

The sequence of lock and I/O operations one call performs, written down in
the order the source executes them: acquire the lock (line 95), read the
token timestamp (line 96), optionally fetch a fresh identity token over the
network (line 98) and write the token state (lines 100–101), release the
lock (end of the `with` block), read the token for the header (line 114),
then call the backend (line 120). -/

inductive LockOp where
  | lockAcquire
  | lockRelease
  | readTokenState
  | writeTokenState
  | netIdentityFetch
  | netBackendCall
deriving DecidableEq

/-- Whether an operation is network I/O. -/
def LockOp.isNetwork : LockOp → Bool
  | .netIdentityFetch => true
  | .netBackendCall => true
  | _ => false

/-- The operation trace of one `_proxy_request` call, as a function of
whether the token-age check fires and whether the fetch succeeds. -/
def proxyRequestTrace (needRefresh fetchSucceeds : Bool) : List LockOp :=
  [.lockAcquire, .readTokenState]
    ++ (if needRefresh then
          [.netIdentityFetch] ++ (if fetchSucceeds then [.writeTokenState] else [])
        else [])
    ++ [.lockRelease, .readTokenState, .netBackendCall]

/-- Whether any operation satisfying `p` occurs while the lock is held
(`held` is the lock state entering the trace). -/
def opWhileLocked (p : LockOp → Bool) : List LockOp → Bool → Bool
  | [], _ => false
  | op :: rest, held =>
      match op with
      | .lockAcquire => opWhileLocked p rest true
      | .lockRelease => opWhileLocked p rest false
      | _ => (p op && held) || opWhileLocked p rest held

/-! ### `_extract_progress` (lines 518–536) -/

/-- A structured progress sample: either the counted `current/total` match
of the regex branch (lines 526–530) or the raw topic line (line 534).  The
source formats the counted case as a `Samples: c/t (p%)` string; the
numeric content is what the claims are about. -/
inductive ProgressSample where
  | counted (current total : Nat)
  | topicRaw (line : String)
deriving DecidableEq

/-- The percentage the counted branch derives (line 529),
`current / total * 100`.  The code raises before a sample with a zero total
can exist (see `lineProgress`), so this is only ever applied with
`total ≠ 0`. -/
def ProgressSample.percentage : ProgressSample → ℚ
  | .counted c t => (c : ℚ) / (t : ℚ) * 100
  | .topicRaw _ => 0

/-- What one call of `_extract_progress` does: return a sample, return
`None`, or raise — the counted branch computes
`int(current) / int(total) * 100` before returning (line 529), so a counted
match whose total is `0` raises `ZeroDivisionError` out of the function. -/
inductive ProgressResult where
  | found (s : ProgressSample)
  | noMatch
  | raised
deriving DecidableEq

/-- One attempt of the regex `total\s+(\d+)/(\d+)` at the start of `cs`:
the literal `total`, one or more whitespace characters, digits, `/`,
digits.  (`\s`/`\d` here are their ASCII fragments; the deepfabric log
lines contain no exotic unicode.) -/
def matchTotalAt (cs : List Char) : Option (Nat × Nat) :=
  if startsWithL ("total".toList) cs then
    let after := cs.drop 5
    let ws := after.takeWhile isPySpace
    if ws.isEmpty then none
    else
      let rest := after.drop ws.length
      let d1 := rest.takeWhile Char.isDigit
      if d1.isEmpty then none
      else
        match rest.drop d1.length with
        | '/' :: rest2 =>
            let d2 := rest2.takeWhile Char.isDigit
            if d2.isEmpty then none else some (natOfDigits d1, natOfDigits d2)
        | _ => none
  else none

/-- `re.search(r"total\s+(\d+)/(\d+)", line)`: the leftmost position at
which the pattern matches, if any. -/
def findTotalPattern : List Char → Option (Nat × Nat)
  | [] => none
  | c :: cs =>
      match matchTotalAt (c :: cs) with
      | some r => some r
      | none => findTotalPattern cs

/-- The guarded counted-pattern attempt for one line (lines 525–528): the
two substring guards, then the regex search. -/
def countedHit (line : String) : Option (Nat × Nat) :=
  let cs := line.toList
  if containsSub ("total".toList) cs && containsSub ("/".toList) cs then
    findTotalPattern cs
  else none

/-- The loop body for one line, in source order (lines 525–534): on a
counted match the percentage `int(current) / int(total) * 100` is computed
before returning, so a zero total raises `ZeroDivisionError` (line 529);
without a counted match the topic check runs; `noMatch` means the loop
moves on to the next line. -/
def lineProgress (line : String) : ProgressResult :=
  match countedHit line with
  | some (c, t) => if t = 0 then .raised else .found (.counted c t)
  | none =>
      if containsSub ("topic".toList) ((line.toList).map pyLowerChar) &&
          containsSub ("/".toList) (line.toList) then
        .found (.topicRaw line)
      else .noMatch

/-- The `for line in reversed(lines)` loop (lines 523–536): the first line,
scanning most-recent-first, whose body returns or raises, decides the
call. -/
def extractLoop : List String → ProgressResult
  | [] => .noMatch
  | l :: rest =>
      match lineProgress l with
      | .found s => .found s
      | .raised => .raised
      | .noMatch => extractLoop rest

/-- `_extract_progress(lines)` (lines 518–536). -/
def _extract_progress (lines : List String) : ProgressResult :=
  extractLoop lines.reverse

/-! ### `run_deepfabric` (lines 449–515)

The subprocess run is modelled by the observable schedule the loop reacts
to: `events` lists the output lines in order, each tagged with the absolute
wall-clock instant of its loop iteration's `time.time()` calls (the timeout
check at line 494, the progress-interval check at line 500 and the
`last_progress_update` write at line 505 fall inside one iteration and are
modelled as one instant).  `startTime` is `time.time()` at line 484,
`initialLPU` the `last_progress_update` initialisation at line 472,
`exitTime` the instant `process.wait()` returns when the loop ran dry, and
`exitCode` the subprocess's exit status.  `slackEnabled` is the truthiness
of `slack_webhook_url and job_name` (line 499; both are required
environment variables in generate mode).  When the interval has elapsed,
`_extract_progress` runs over the last 20 lines (line 502) inside the
`try`: if it raises (counted match with zero total), the `except` at lines
514–515 returns `(False, str(e))` without killing or waiting for the
subprocess; otherwise `_send_progress_update` swallows its own errors
(lines 552–555) and `last_progress_update` is reset. -/

/-- The timeout failure detail of line 496. -/
def timeoutMessage (timeoutSeconds : Nat) : String :=
  "Job timed out after " ++ toString timeoutSeconds ++ " seconds"

/-- What a run of `run_deepfabric` produces: the returned pair (lines
496/510/512/515), whether the subprocess was killed (line 495), and the
instant at which the function returned. -/
structure RunOutcome where
  success : Bool
  detail : String
  killed : Bool
  finishedAt : ℚ
deriving DecidableEq

/-- `"\n".join(output_lines)` (lines 510–512). -/
def joinLines (ls : List String) : String :=
  String.intercalate "\n" ls

/-- Python `lines[-20:]` (line 502): the last at most `n` elements. -/
def lastN {α : Type} (n : Nat) (l : List α) : List α :=
  l.drop (l.length - n)

/-- `str(e)` for the `ZeroDivisionError` of line 529, as returned by the
`except` handler at line 515. -/
def zeroDivisionDetail : String := "division by zero"

/-- The output-streaming loop (lines 487–512) together with its `except`
handler (lines 514–515).  Each iteration appends its line and checks the
deadline; then, when Slack reporting is enabled and the progress interval
has elapsed, it runs progress extraction over the 20-line window: a raise
aborts the run early through the `except` handler (no kill, no wait), any
other outcome resets `last_progress_update` and the loop continues.  Past
the loop, the exit status decides the result, with
`"\n".join(...) or f"Exit code: ..."` on failure. -/
def streamLoop (timeoutSeconds : Nat) (progressInterval : ℚ)
    (slackEnabled : Bool) (startTime exitTime : ℚ) (exitCode : Int) :
    List (ℚ × String) → List String → ℚ → RunOutcome
  | [], acc, _ =>
      if exitCode = 0 then
        { success := true, detail := joinLines acc, killed := false, finishedAt := exitTime }
      else if joinLines acc = "" then
        { success := false, detail := "Exit code: " ++ toString exitCode,
          killed := false, finishedAt := exitTime }
      else
        { success := false, detail := joinLines acc, killed := false, finishedAt := exitTime }
  | (t, line) :: rest, acc, lpu =>
      let acc2 := acc ++ [line]
      if (timeoutSeconds : ℚ) < t - startTime then
        { success := false, detail := timeoutMessage timeoutSeconds,
          killed := true, finishedAt := t }
      else if slackEnabled ∧ progressInterval < t - lpu then
        match _extract_progress (lastN 20 acc2) with
        | .raised =>
            { success := false, detail := zeroDivisionDetail,
              killed := false, finishedAt := t }
        | .found _ =>
            streamLoop timeoutSeconds progressInterval slackEnabled startTime
              exitTime exitCode rest acc2 t
        | .noMatch =>
            streamLoop timeoutSeconds progressInterval slackEnabled startTime
              exitTime exitCode rest acc2 t
      else
        streamLoop timeoutSeconds progressInterval slackEnabled startTime
          exitTime exitCode rest acc2 lpu

/-- `run_deepfabric`'s supervision of one subprocess run (lines 470–515). -/
def run_deepfabric (timeoutSeconds : Nat) (progressInterval : ℚ)
    (slackEnabled : Bool) (startTime initialLPU : ℚ)
    (events : List (ℚ × String)) (exitTime : ℚ) (exitCode : Int) : RunOutcome :=
  streamLoop timeoutSeconds progressInterval slackEnabled startTime exitTime
    exitCode events [] initialLPU

/-! ### Slack error section of `send_slack_notification` (lines 309–318) -/

/-- The mrkdwn text of the error section appended at lines 309–318, or
`none` when `error_message` is `None` or empty (Python truthiness at line
309).  A message longer than 500 characters is cut to its first 500 and a
literal `...` is appended (lines 311–312). -/
def slackErrorText (errorMessage : Option (List Char)) : Option (List Char) :=
  match errorMessage with
  | none => none
  | some msg =>
      if msg.isEmpty then none
      else
        let msg2 := if msg.length > 500 then msg.take 500 ++ ("...".toList) else msg
        some (("*Error:*\n```".toList) ++ msg2 ++ ("```".toList))

/-! ### `get_output_files_from_config` (lines 231–252) -/

/-- Python truthiness of the `topics_load: str | None` argument
(`not topics_load` at line 243). -/
def optStrTruthy : Option String → Bool
  | none => false
  | some s => s != ""

/-- The topic-graph output declared by the config: `config["topics"]["save_as"]`
when both keys are present (lines 244–245). -/
def topicGraphDecl (cf : List (String × JVal)) : List JVal :=
  match jget cf "topics" with
  | some (.obj tf) =>
      match jget tf "save_as" with
      | some v => [v]
      | none => []
  | _ => []

/-- The dataset output declared by the config: `config["output"]["save_as"]`
when both keys are present (lines 249–250). -/
def datasetDecl (cf : List (String × JVal)) : List JVal :=
  match jget cf "output" with
  | some (.obj outf) =>
      match jget outf "save_as" with
      | some v => [v]
      | none => []
  | _ => []

/-- `get_output_files_from_config` (lines 231–252) on the parsed config
mapping: the topic-graph path when `topic_only or not topics_load`, then the
dataset path when `not topic_only`. -/
def get_output_files_from_config (cf : List (String × JVal))
    (topic_only : Bool) (topics_load : Option String) : List JVal :=
  (if topic_only || !optStrTruthy topics_load then topicGraphDecl cf else []) ++
    (if !topic_only then datasetDecl cf else [])

/-! ## Claim theorems -/

/-- C5: the tool-listing transform applied to
`{"tools":[{"name":"x","inputSchema":[{"name":"q","type":"string","required":true}]}]}`
produces exactly
`{"tools":[{"name":"x","description":"","inputSchema":{"type":"object","properties":{"q":{"type":"string"}},"required":["q"]}}]}`. -/
theorem claim_c5_transform_concrete :
    transform_tools_response
      (JVal.obj [("tools", JVal.arr
        [JVal.obj [("name", JVal.str "x"),
          ("inputSchema", JVal.arr
            [JVal.obj [("name", JVal.str "q"), ("type", JVal.str "string"),
              ("required", JVal.bool true)]])]])])
      = some (JVal.obj [("tools", JVal.arr
          [JVal.obj [("name", JVal.str "x"), ("description", JVal.str ""),
            ("inputSchema", JVal.obj
              [("type", JVal.str "object"),
               ("properties", JVal.obj [("q", JVal.obj [("type", JVal.str "string")])]),
               ("required", JVal.arr [JVal.str "q"])])]])]) := rfl

/-- C6: for every backend response to a request whose path is not the
tool-listing path, the proxy's response body and status code equal the
backend's response body and status code, whatever the transform would do. -/
theorem claim_c6_nonlisting_verbatim {β : Type} (path : String)
    (tryTransform : β → Option β) (r : BackendResult β)
    (h : containsSubStr "/list-tools" path = false) :
    proxyRelay path tryTransform r = (r.status, r.body) := by
  cases r with
  | ok s b => simp [proxyRelay, h, BackendResult.status, BackendResult.body]
  | httpError s b => rfl

/-- Witness for C6 at a concrete non-listing path and backend response. -/
theorem claim_c6_witness :
    containsSubStr "/list-tools" "/mock/execute-tool" = false
    ∧ proxyRelay "/mock/execute-tool" (fun _ : String => none)
        (BackendResult.ok 200 "hello") = (200, "hello") :=
  ⟨by decide, claim_c6_nonlisting_verbatim _ _ _ (by decide)⟩

/-- C3: while the token is younger than the 45-minute refresh interval, a
proxied request performs no fetch and puts the stored token in the
`Authorization` header; and a failed refresh attempt never clears the
stored token value. -/
theorem claim_c3_fresh_token_reused (st : TokenState) (now : ℚ)
    (fetched : Option String) :
    (now - st.obtainedAt < TOKEN_REFRESH_INTERVAL →
      proxyTokenRefresh st now fetched = (st, false)
      ∧ proxyAuthToken st now fetched = st.value)
    ∧ (fetched = none → ((proxyTokenRefresh st now fetched).1).value = st.value) := by
  constructor
  · intro h
    have hn : ¬ TOKEN_REFRESH_INTERVAL < now - st.obtainedAt := not_lt.mpr h.le
    constructor
    · unfold proxyTokenRefresh
      rw [if_neg hn]
    · unfold proxyAuthToken proxyTokenRefresh
      rw [if_neg hn]
  · intro h
    subst h
    unfold proxyTokenRefresh
    split
    · rfl
    · rfl

/-- Witness for C3: a 100-second-old token is reused even though a fresh one
is on offer, and a failed refresh leaves the stored value in place. -/
theorem claim_c3_witness :
    ((100 : ℚ) - (0 : ℚ) < TOKEN_REFRESH_INTERVAL
      ∧ (proxyTokenRefresh ⟨"tok", 0⟩ 100 (some "new") = (⟨"tok", 0⟩, false)
          ∧ proxyAuthToken ⟨"tok", 0⟩ 100 (some "new") = "tok"))
    ∧ ((proxyTokenRefresh ⟨"tok2", 0⟩ 3000 none).1).value = "tok2" := by
  have h1 := (claim_c3_fresh_token_reused ⟨"tok", 0⟩ 100 (some "new")).1
  have h2 := (claim_c3_fresh_token_reused ⟨"tok2", 0⟩ 3000 none).2
  exact ⟨⟨by norm_num [TOKEN_REFRESH_INTERVAL],
      h1 (by norm_num [TOKEN_REFRESH_INTERVAL])⟩, h2 rfl⟩

/-- C9: a failed refresh attempt changes neither the token value nor the
obtained-at timestamp, so any later request past the interval attempts the
refresh again. -/
theorem claim_c9_failed_refresh_atomic (st : TokenState) (now : ℚ)
    (fetched : Option String) (h : fetched = none) :
    (proxyTokenRefresh st now fetched).1 = st
    ∧ ∀ (now2 : ℚ) (fetched2 : Option String),
        TOKEN_REFRESH_INTERVAL < now2 - st.obtainedAt →
        (proxyTokenRefresh ((proxyTokenRefresh st now fetched).1) now2 fetched2).2 = true := by
  subst h
  have h1 : (proxyTokenRefresh st now none).1 = st := by
    unfold proxyTokenRefresh
    split
    · rfl
    · rfl
  refine ⟨h1, fun now2 fetched2 hgt => ?_⟩
  rw [h1]
  unfold proxyTokenRefresh
  rw [if_pos hgt]
  cases fetched2
  · rfl
  · rfl

/-- Witness for C9: after a failed refresh at t=5000, the state is intact and
the request at t=6000 attempts the fetch again. -/
theorem claim_c9_witness :
    ((none : Option String) = none)
    ∧ ((proxyTokenRefresh ⟨"tok", 0⟩ 5000 none).1 = (⟨"tok", 0⟩ : TokenState)
      ∧ TOKEN_REFRESH_INTERVAL < (6000 : ℚ) - (TokenState.mk "tok" 0).obtainedAt
      ∧ (proxyTokenRefresh ((proxyTokenRefresh ⟨"tok", 0⟩ 5000 none).1) 6000
            (some "n")).2 = true) := by
  have h := claim_c9_failed_refresh_atomic ⟨"tok", 0⟩ 5000 none rfl
  have hgt : TOKEN_REFRESH_INTERVAL < (6000 : ℚ) - (TokenState.mk "tok" 0).obtainedAt := by
    norm_num [TOKEN_REFRESH_INTERVAL]
  exact ⟨rfl, h.1, hgt, h.2 6000 (some "n") hgt⟩

/-- C4 counterexample: on a proxied request for which a token refresh is due,
the trace of `_proxy_request` performs network I/O (the identity-token
fetch) while the token lock is held, so the lock is not held only for the
duration of token reads/writes. -/
theorem claim_c4_counterexample :
    opWhileLocked LockOp.isNetwork (proxyRequestTrace true true) false = true := by
  decide

/-- C4 (amended): the backend forward call is never made while the token
lock is held, and when no refresh is due no network I/O happens under the
lock; but when a refresh is due, the identity-token fetch is network I/O
performed while the lock is held. -/
theorem claim_c4_lock_scope (needRefresh fetchSucceeds : Bool) :
    opWhileLocked (fun op => op == LockOp.netBackendCall)
        (proxyRequestTrace needRefresh fetchSucceeds) false = false
    ∧ opWhileLocked (fun op => op == LockOp.netIdentityFetch)
        (proxyRequestTrace needRefresh fetchSucceeds) false = needRefresh := by
  cases needRefresh <;> cases fetchSucceeds <;> exact ⟨rfl, rfl⟩

/-- C7: the declared output set is selected by run mode — topic-only runs
declare exactly the topic-graph path, resumed-topics runs exactly the
dataset path, full runs both, each as declared by the config. -/
theorem claim_c7_outputs_by_mode (cf : List (String × JVal))
    (topics_load : Option String) :
    (get_output_files_from_config cf true topics_load = topicGraphDecl cf)
    ∧ (optStrTruthy topics_load = true →
        get_output_files_from_config cf false topics_load = datasetDecl cf)
    ∧ (optStrTruthy topics_load = false →
        get_output_files_from_config cf false topics_load
          = topicGraphDecl cf ++ datasetDecl cf) := by
  refine ⟨?_, fun h => ?_, fun h => ?_⟩
  · simp [get_output_files_from_config]
  · simp [get_output_files_from_config, h]
  · simp [get_output_files_from_config, h]

/-- Witness for C7 on a config declaring both outputs, exercising the three
run modes. -/
theorem claim_c7_witness :
    (get_output_files_from_config
        [("topics", JVal.obj [("save_as", JVal.str "g.jsonl")]),
         ("output", JVal.obj [("save_as", JVal.str "d.jsonl")])]
        true (some "topics.jsonl")
      = topicGraphDecl
          [("topics", JVal.obj [("save_as", JVal.str "g.jsonl")]),
           ("output", JVal.obj [("save_as", JVal.str "d.jsonl")])])
    ∧ (optStrTruthy (some "topics.jsonl") = true
      ∧ get_output_files_from_config
          [("topics", JVal.obj [("save_as", JVal.str "g.jsonl")]),
           ("output", JVal.obj [("save_as", JVal.str "d.jsonl")])]
          false (some "topics.jsonl")
        = datasetDecl
            [("topics", JVal.obj [("save_as", JVal.str "g.jsonl")]),
             ("output", JVal.obj [("save_as", JVal.str "d.jsonl")])])
    ∧ (optStrTruthy none = false
      ∧ get_output_files_from_config
          [("topics", JVal.obj [("save_as", JVal.str "g.jsonl")]),
           ("output", JVal.obj [("save_as", JVal.str "d.jsonl")])]
          false none
        = topicGraphDecl
            [("topics", JVal.obj [("save_as", JVal.str "g.jsonl")]),
             ("output", JVal.obj [("save_as", JVal.str "d.jsonl")])]
          ++ datasetDecl
              [("topics", JVal.obj [("save_as", JVal.str "g.jsonl")]),
               ("output", JVal.obj [("save_as", JVal.str "d.jsonl")])]) := by
  refine ⟨(claim_c7_outputs_by_mode _ _).1,
    ⟨by decide, (claim_c7_outputs_by_mode _ _).2.1 (by decide)⟩,
    ⟨by decide, (claim_c7_outputs_by_mode _ _).2.2 (by decide)⟩⟩

/-- C8: a terminal notification built with an error message longer than 500
characters includes only the 500-character truncation of that message in
the error section (with a literal `...` marker appended after the cut). -/
theorem claim_c8_error_truncated (msg : List Char) (h : msg.length > 500) :
    slackErrorText (some msg)
      = some (("*Error:*\n```".toList) ++ (msg.take 500 ++ ("...".toList)) ++ ("```".toList))
    ∧ (msg.take 500).length = 500
    ∧ msg.take 500 <+: msg := by
  have hne : msg.isEmpty = false := by
    cases msg with
    | nil => simp at h
    | cons a l => rfl
  refine ⟨?_, ?_, List.take_prefix 500 msg⟩
  · simp [slackErrorText, hne, h]
  · rw [List.length_take]
    omega

/-- Helper shared by C1 and C2: a non-`noMatch` outcome of the extraction
loop comes from some line of the scanned list. -/
lemma extractLoop_mem (ls : List String) (r : ProgressResult)
    (hne : r ≠ ProgressResult.noMatch) :
    extractLoop ls = r → ∃ l ∈ ls, lineProgress l = r := by
  induction ls with
  | nil =>
      intro h
      exact absurd h.symm hne
  | cons l rest ih =>
      intro h
      cases hl : lineProgress l with
      | noMatch =>
          simp only [extractLoop, hl] at h
          obtain ⟨l2, hl2, he⟩ := ih h
          exact ⟨l2, List.mem_cons_of_mem _ hl2, he⟩
      | found s =>
          simp only [extractLoop, hl] at h
          exact ⟨l, List.mem_cons_self .., hl.trans h⟩
      | raised =>
          simp only [extractLoop, hl] at h
          exact ⟨l, List.mem_cons_self .., hl.trans h⟩

/-- Helper shared by C1 and C2: a window none of whose lines raises makes
the whole extraction not raise. -/
lemma extract_no_raise (ls : List String)
    (h : ∀ l ∈ ls, lineProgress l ≠ ProgressResult.raised) :
    _extract_progress ls ≠ ProgressResult.raised := by
  intro hr
  obtain ⟨l, hl, he⟩ := extractLoop_mem ls.reverse ProgressResult.raised (by simp) hr
  exact h l (List.mem_reverse.mp hl) he

/-- Unfolding equation of `streamLoop` at the end of the stream (stated by
hand: the automatic equation generator struggles with this definition). -/
lemma streamLoop_nil (T : Nat) (pI : ℚ) (sE : Bool) (st ext : ℚ) (ec : Int)
    (acc : List String) (lpu : ℚ) :
    streamLoop T pI sE st ext ec [] acc lpu
      = (if ec = 0 then
          { success := true, detail := joinLines acc, killed := false, finishedAt := ext }
        else if joinLines acc = "" then
          { success := false, detail := "Exit code: " ++ toString ec,
            killed := false, finishedAt := ext }
        else
          { success := false, detail := joinLines acc, killed := false, finishedAt := ext }) :=
  rfl

/-- Unfolding equation of `streamLoop` at one stream event (stated by hand). -/
lemma streamLoop_cons (T : Nat) (pI : ℚ) (sE : Bool) (st ext : ℚ) (ec : Int)
    (t : ℚ) (line : String) (rest : List (ℚ × String)) (acc : List String) (lpu : ℚ) :
    streamLoop T pI sE st ext ec ((t, line) :: rest) acc lpu
      = (if (T : ℚ) < t - st then
          { success := false, detail := timeoutMessage T, killed := true, finishedAt := t }
        else if sE ∧ pI < t - lpu then
          match _extract_progress (lastN 20 (acc ++ [line])) with
          | ProgressResult.raised =>
              { success := false, detail := zeroDivisionDetail,
                killed := false, finishedAt := t }
          | ProgressResult.found _ => streamLoop T pI sE st ext ec rest (acc ++ [line]) t
          | ProgressResult.noMatch => streamLoop T pI sE st ext ec rest (acc ++ [line]) t
        else streamLoop T pI sE st ext ec rest (acc ++ [line]) lpu) :=
  rfl

/-- C1 counterexample: a run whose subprocess lives for 100 seconds against a
10-second deadline, but whose only output line arrives at second 1, is never
killed — the loop only checks the clock after reading a line, so the run
waits out the subprocess and even reports success. -/
theorem claim_c1_counterexample :
    (10 : ℚ) < 100 - 0
    ∧ run_deepfabric 10 900 true 0 0 [((1 : ℚ), "hello")] 100 0
        = { success := true, detail := "hello", killed := false, finishedAt := 100 } := by
  have hj : joinLines ["hello"] = "hello" := by decide
  constructor
  · norm_num
  · norm_num [run_deepfabric, streamLoop_cons, streamLoop_nil, hj]

/-- Helper for C1: when no line of the run can make the progress extraction
raise, the streaming loop kills and reports the timeout message as soon as
some line's deadline check fires. -/
lemma streamLoop_late (T : Nat) (pI : ℚ) (sE : Bool)
    (startTime exitTime : ℚ) (exitCode : Int) :
    ∀ (events : List (ℚ × String)) (acc : List String) (lpu : ℚ),
      (∀ l ∈ acc, lineProgress l ≠ ProgressResult.raised) →
      (∀ e ∈ events, lineProgress e.2 ≠ ProgressResult.raised) →
      (∃ e ∈ events, (T : ℚ) < e.1 - startTime) →
      (streamLoop T pI sE startTime exitTime exitCode events acc lpu).killed = true
      ∧ (streamLoop T pI sE startTime exitTime exitCode events acc lpu).success = false
      ∧ (streamLoop T pI sE startTime exitTime exitCode events acc lpu).detail
          = timeoutMessage T := by
  intro events
  induction events with
  | nil =>
      intro acc lpu _ _ h
      simp at h
  | cons e rest ih =>
      intro acc lpu hacc hev h
      obtain ⟨t, line⟩ := e
      have haccline : ∀ l ∈ acc ++ [line], lineProgress l ≠ ProgressResult.raised := by
        intro l hl
        rcases List.mem_append.mp hl with h1 | h2
        · exact hacc l h1
        · have h3 : l = line := by simpa using h2
          rw [h3]
          exact hev (t, line) (List.mem_cons_self ..)
      have hevRest : ∀ e2 ∈ rest, lineProgress e2.2 ≠ ProgressResult.raised :=
        fun e2 he2 => hev e2 (List.mem_cons_of_mem _ he2)
      by_cases hlt : (T : ℚ) < t - startTime
      · simp [streamLoop_cons, hlt]
      · have hrest : ∃ e2 ∈ rest, (T : ℚ) < e2.1 - startTime := by
          rcases h with ⟨e2, he2, hl2⟩
          rcases List.mem_cons.mp he2 with h1 | h2
          · rw [h1] at hl2
            exact absurd hl2 hlt
          · exact ⟨e2, h2, hl2⟩
        have hnr : _extract_progress (lastN 20 (acc ++ [line])) ≠ ProgressResult.raised :=
          extract_no_raise _ (fun l hl => haccline l (List.drop_subset _ _ hl))
        by_cases hsp : sE ∧ pI < t - lpu
        · cases hex : _extract_progress (lastN 20 (acc ++ [line])) with
          | raised => exact absurd hex hnr
          | found s =>
              simpa [streamLoop_cons, hlt, hsp, hex] using
                ih (acc ++ [line]) t haccline hevRest hrest
          | noMatch =>
              simpa [streamLoop_cons, hlt, hsp, hex] using
                ih (acc ++ [line]) t haccline hevRest hrest
        · simpa [streamLoop_cons, hlt, hsp] using
            ih (acc ++ [line]) lpu haccline hevRest hrest

/-- Helper for C1: when every line arrives before the deadline and none can
make the progress extraction raise, the loop never kills and only returns
once the subprocess has exited. -/
lemma streamLoop_no_late (T : Nat) (pI : ℚ) (sE : Bool)
    (startTime exitTime : ℚ) (exitCode : Int) :
    ∀ (events : List (ℚ × String)) (acc : List String) (lpu : ℚ),
      (∀ l ∈ acc, lineProgress l ≠ ProgressResult.raised) →
      (∀ e ∈ events, lineProgress e.2 ≠ ProgressResult.raised) →
      (∀ e ∈ events, e.1 - startTime ≤ (T : ℚ)) →
      (streamLoop T pI sE startTime exitTime exitCode events acc lpu).killed = false
      ∧ (streamLoop T pI sE startTime exitTime exitCode events acc lpu).finishedAt
          = exitTime := by
  intro events
  induction events with
  | nil =>
      intro acc lpu _ _ _
      constructor
      · rw [streamLoop_nil]
        split
        · rfl
        · split
          · rfl
          · rfl
      · rw [streamLoop_nil]
        split
        · rfl
        · split
          · rfl
          · rfl
  | cons e rest ih =>
      intro acc lpu hacc hev h
      obtain ⟨t, line⟩ := e
      have haccline : ∀ l ∈ acc ++ [line], lineProgress l ≠ ProgressResult.raised := by
        intro l hl
        rcases List.mem_append.mp hl with h1 | h2
        · exact hacc l h1
        · have h3 : l = line := by simpa using h2
          rw [h3]
          exact hev (t, line) (List.mem_cons_self ..)
      have hevRest : ∀ e2 ∈ rest, lineProgress e2.2 ≠ ProgressResult.raised :=
        fun e2 he2 => hev e2 (List.mem_cons_of_mem _ he2)
      have ht : ¬ (T : ℚ) < t - startTime :=
        not_lt.mpr (h (t, line) (List.mem_cons_self ..))
      have hrest : ∀ e2 ∈ rest, e2.1 - startTime ≤ (T : ℚ) :=
        fun e2 he2 => h e2 (List.mem_cons_of_mem _ he2)
      have hnr : _extract_progress (lastN 20 (acc ++ [line])) ≠ ProgressResult.raised :=
        extract_no_raise _ (fun l hl => haccline l (List.drop_subset _ _ hl))
      by_cases hsp : sE ∧ pI < t - lpu
      · cases hex : _extract_progress (lastN 20 (acc ++ [line])) with
        | raised => exact absurd hex hnr
        | found s =>
            simpa [streamLoop_cons, ht, hsp, hex] using
              ih (acc ++ [line]) t haccline hevRest hrest
        | noMatch =>
            simpa [streamLoop_cons, ht, hsp, hex] using
              ih (acc ++ [line]) t haccline hevRest hrest
      · simpa [streamLoop_cons, ht, hsp] using
          ih (acc ++ [line]) lpu haccline hevRest hrest

/-- C1 (amended): when no line of the run makes the progress extraction
raise, the supervisor kills the subprocess and returns the timeout-specific
failure as soon as it reads an output line past the deadline, and a
subprocess whose lines all arrive in time is never terminated — the
supervisor blocks until the subprocess exits on its own, however late; but
an iteration whose elapsed progress interval triggers an extraction that
raises (a counted line with zero total in the 20-line window) makes the
loop return early through the `except` handler with `(False, str(e))` —
no kill, no wait. -/
theorem claim_c1_timeout_on_output (timeoutSeconds : Nat) (progressInterval : ℚ)
    (slackEnabled : Bool) (startTime initialLPU : ℚ)
    (events : List (ℚ × String)) (exitTime : ℚ) (exitCode : Int) :
    ((∀ e ∈ events, lineProgress e.2 ≠ ProgressResult.raised) →
      (∃ e ∈ events, (timeoutSeconds : ℚ) < e.1 - startTime) →
      (run_deepfabric timeoutSeconds progressInterval slackEnabled startTime
          initialLPU events exitTime exitCode).killed = true
      ∧ (run_deepfabric timeoutSeconds progressInterval slackEnabled startTime
          initialLPU events exitTime exitCode).success = false
      ∧ (run_deepfabric timeoutSeconds progressInterval slackEnabled startTime
          initialLPU events exitTime exitCode).detail = timeoutMessage timeoutSeconds)
    ∧ ((∀ e ∈ events, lineProgress e.2 ≠ ProgressResult.raised) →
      (∀ e ∈ events, e.1 - startTime ≤ (timeoutSeconds : ℚ)) →
      (run_deepfabric timeoutSeconds progressInterval slackEnabled startTime
          initialLPU events exitTime exitCode).killed = false
      ∧ (run_deepfabric timeoutSeconds progressInterval slackEnabled startTime
          initialLPU events exitTime exitCode).finishedAt = exitTime)
    ∧ (∀ (t : ℚ) (line : String) (rest : List (ℚ × String))
          (acc : List String) (lpu : ℚ),
        ¬ (timeoutSeconds : ℚ) < t - startTime →
        slackEnabled = true →
        progressInterval < t - lpu →
        _extract_progress (lastN 20 (acc ++ [line])) = ProgressResult.raised →
        streamLoop timeoutSeconds progressInterval slackEnabled startTime exitTime
            exitCode ((t, line) :: rest) acc lpu
          = { success := false, detail := zeroDivisionDetail,
              killed := false, finishedAt := t }) := by
  refine ⟨fun hraise h => streamLoop_late timeoutSeconds progressInterval slackEnabled
      startTime exitTime exitCode events [] initialLPU (by simp) hraise h,
    fun hraise h => streamLoop_no_late timeoutSeconds progressInterval slackEnabled
      startTime exitTime exitCode events [] initialLPU (by simp) hraise h,
    fun t line rest acc lpu h1 h2 h3 hex => ?_⟩
  simp [streamLoop_cons, h1, h2, h3, hex]

/-- Witness for C1 (amended): a line at second 20 against a 10-second
deadline triggers the kill; a run whose lines all arrive by second 5 ends
only at the subprocess's own exit at second 30; and a `total 3/0` line with
the progress interval elapsed aborts the run at second 950 without kill or
wait. -/
theorem claim_c1_witness :
    ((∀ e ∈ [((5 : ℚ), "a"), ((20 : ℚ), "b")], lineProgress e.2 ≠ ProgressResult.raised)
      ∧ (∃ e ∈ [((5 : ℚ), "a"), ((20 : ℚ), "b")], (10 : ℚ) < e.1 - 0)
      ∧ ((run_deepfabric 10 900 true 0 0 [((5 : ℚ), "a"), ((20 : ℚ), "b")] 30 1).killed = true
        ∧ (run_deepfabric 10 900 true 0 0 [((5 : ℚ), "a"), ((20 : ℚ), "b")] 30 1).success = false
        ∧ (run_deepfabric 10 900 true 0 0 [((5 : ℚ), "a"), ((20 : ℚ), "b")] 30 1).detail
            = timeoutMessage 10))
    ∧ ((∀ e ∈ [((5 : ℚ), "a")], lineProgress e.2 ≠ ProgressResult.raised)
      ∧ (∀ e ∈ [((5 : ℚ), "a")], e.1 - 0 ≤ (10 : ℚ))
      ∧ ((run_deepfabric 10 900 true 0 0 [((5 : ℚ), "a")] 30 0).killed = false
        ∧ (run_deepfabric 10 900 true 0 0 [((5 : ℚ), "a")] 30 0).finishedAt = 30))
    ∧ (¬ (1000 : ℚ) < 950 - 0
      ∧ (900 : ℚ) < 950 - 0
      ∧ _extract_progress (lastN 20 ([] ++ ["x total 3/0"])) = ProgressResult.raised
      ∧ streamLoop 1000 900 true 0 30 0 [((950 : ℚ), "x total 3/0")] [] 0
          = { success := false, detail := zeroDivisionDetail,
              killed := false, finishedAt := 950 }) :=
  ⟨⟨by decide, ⟨((20 : ℚ), "b"), by simp, by norm_num⟩,
    (claim_c1_timeout_on_output 10 900 true 0 0 [((5 : ℚ), "a"), ((20 : ℚ), "b")] 30 1).1
      (by decide) ⟨((20 : ℚ), "b"), by simp, by norm_num⟩⟩,
   ⟨by decide,
    by
      intro e he
      rw [List.mem_singleton] at he
      subst he
      norm_num,
    (claim_c1_timeout_on_output 10 900 true 0 0 [((5 : ℚ), "a")] 30 0).2.1
      (by decide)
      (by
        intro e he
        rw [List.mem_singleton] at he
        subst he
        norm_num)⟩,
   ⟨by norm_num, by norm_num, by decide,
    (claim_c1_timeout_on_output 1000 900 true 0 0 [] 30 0).2.2
      950 "x total 3/0" [] [] 0 (by norm_num) rfl (by norm_num) (by decide)⟩⟩

/-- C10 claim side: the claim's domain — a parameter entry is a dict whose
`name` field, when present, is a string. -/
def paramNameShapeOk : JVal → Bool
  | .obj pf =>
      match jget pf "name" with
      | none => true
      | some (.str _) => true
      | some _ => false
  | _ => false

/-- C10 claim side: the parameter's `name` field is missing or empty. -/
def paramNameMissingOrEmpty : JVal → Bool
  | .obj pf =>
      match jget pf "name" with
      | none => true
      | some (.str s) => s == ""
      | some _ => false
  | _ => false

/-- C10 claim side, from the claim's words: the `properties` entry one
parameter contributes — nothing when its name is missing or empty, otherwise
its normal conversion keyed by its name. -/
def claimPropContrib : JVal → Option (String × JVal)
  | .obj pf =>
      match jget pf "name" with
      | some (.str s) => if s = "" then none else some (s, buildProp pf)
      | _ => none
  | _ => none

/-- C10 claim side, from the claim's words: the `required` entry one
parameter contributes — its name exactly when it is kept and flagged
required. -/
def claimReqContrib : JVal → Option JVal
  | .obj pf =>
      match jget pf "name" with
      | some (.str s) =>
          if s = "" then none
          else if pyTruthy ((jget pf "required").getD (JVal.bool false)) then
            some (JVal.str s)
          else none
      | _ => none
  | _ => none

/-- Helper for C10: writing to a fresh key of a Python dict appends. -/
lemma dictSet_append (props : List (String × JVal)) (k : String) (v : JVal)
    (h : ∀ p ∈ props, p.1 ≠ k) : dictSet props k v = props ++ [(k, v)] := by
  induction props with
  | nil => rfl
  | cons q rest ih =>
      obtain ⟨k1, v1⟩ := q
      have h1 : (k1 == k) = false := by
        simpa using h (k1, v1) (List.mem_cons_self ..)
      simp only [dictSet, h1, Bool.false_eq_true, if_false, List.cons_append,
        List.cons.injEq, true_and]
      exact ih (fun p hp => h p (List.mem_cons_of_mem _ hp))

/-- Helper for C10: over parameters in the claim's domain with pairwise
distinct kept names, the source's parameter loop produces exactly the
per-parameter contributions, appended in order. -/
lemma convertParamsAux_filterMap :
    ∀ (params : List JVal) (props : List (String × JVal)) (reqs : List JVal),
      (∀ p ∈ params, paramNameShapeOk p = true) →
      ((params.filterMap claimPropContrib).map Prod.fst).Nodup →
      (∀ q ∈ props, ∀ r ∈ params.filterMap claimPropContrib, q.1 ≠ r.1) →
      convertParamsAux props reqs params
        = some (props ++ params.filterMap claimPropContrib,
                reqs ++ params.filterMap claimReqContrib) := by
  intro params
  induction params with
  | nil =>
      intro props reqs _ _ _
      simp [convertParamsAux]
  | cons p rest ih =>
      intro props reqs hshape hnodup hdisj
      have hp : paramNameShapeOk p = true := hshape p (List.mem_cons_self ..)
      have hshapeRest : ∀ q ∈ rest, paramNameShapeOk q = true :=
        fun q hq => hshape q (List.mem_cons_of_mem _ hq)
      cases p with
      | null => simp [paramNameShapeOk] at hp
      | bool b => simp [paramNameShapeOk] at hp
      | num n => simp [paramNameShapeOk] at hp
      | str s => simp [paramNameShapeOk] at hp
      | arr xs => simp [paramNameShapeOk] at hp
      | obj pf =>
          cases hname : jget pf "name" with
          | none =>
              have hout : paramOutcome pf = ParamOutcome.skipped := by
                simp [paramOutcome, hname, pyTruthy]
              have hpc : claimPropContrib (JVal.obj pf) = none := by
                simp [claimPropContrib, hname]
              have hrc : claimReqContrib (JVal.obj pf) = none := by
                simp [claimReqContrib, hname]
              simp only [List.filterMap_cons, hpc, hrc] at hnodup hdisj ⊢
              simp only [convertParamsAux, hout]
              exact ih props reqs hshapeRest hnodup hdisj
          | some v =>
              cases v with
              | null => simp [paramNameShapeOk, hname] at hp
              | bool b => simp [paramNameShapeOk, hname] at hp
              | num n => simp [paramNameShapeOk, hname] at hp
              | arr xs => simp [paramNameShapeOk, hname] at hp
              | obj fs2 => simp [paramNameShapeOk, hname] at hp
              | str s =>
                  by_cases hs : s = ""
                  · subst hs
                    have hout : paramOutcome pf = ParamOutcome.skipped := by
                      simp [paramOutcome, hname, pyTruthy]
                    have hpc : claimPropContrib (JVal.obj pf) = none := by
                      simp [claimPropContrib, hname]
                    have hrc : claimReqContrib (JVal.obj pf) = none := by
                      simp [claimReqContrib, hname]
                    simp only [List.filterMap_cons, hpc, hrc] at hnodup hdisj ⊢
                    simp only [convertParamsAux, hout]
                    exact ih props reqs hshapeRest hnodup hdisj
                  · have hsne : (s != "") = true := bne_iff_ne.mpr hs
                    have hout : paramOutcome pf
                        = ParamOutcome.kept s (buildProp pf) (JVal.str s)
                            (pyTruthy ((jget pf "required").getD (JVal.bool false))) := by
                      simp [paramOutcome, hname, pyTruthy, hsne, pyKeyStr]
                    have hpc : claimPropContrib (JVal.obj pf)
                        = some (s, buildProp pf) := by
                      simp [claimPropContrib, hname, hs]
                    have hrc : claimReqContrib (JVal.obj pf)
                        = (if pyTruthy ((jget pf "required").getD (JVal.bool false)) then
                            some (JVal.str s) else none) := by
                      simp [claimReqContrib, hname, hs]
                    simp only [List.filterMap_cons, hpc, hrc] at hnodup hdisj ⊢
                    have hcons : (s :: (rest.filterMap claimPropContrib).map Prod.fst).Nodup := by
                      simpa only [List.map_cons] using hnodup
                    have hnodupRest : ((rest.filterMap claimPropContrib).map Prod.fst).Nodup :=
                      (List.nodup_cons.mp hcons).2
                    have hfresh : s ∉ (rest.filterMap claimPropContrib).map Prod.fst :=
                      (List.nodup_cons.mp hcons).1
                    have hpropsFresh : ∀ q ∈ props, q.1 ≠ s := by
                      intro q hq
                      exact hdisj q hq (s, buildProp pf) (List.mem_cons_self ..)
                    have hdictSet : dictSet props s (buildProp pf)
                        = props ++ [(s, buildProp pf)] :=
                      dictSet_append props s (buildProp pf) hpropsFresh
                    have hdisjRest : ∀ q ∈ props ++ [(s, buildProp pf)],
                        ∀ r ∈ rest.filterMap claimPropContrib, q.1 ≠ r.1 := by
                      intro q hq r hr
                      rcases List.mem_append.mp hq with hq1 | hq2
                      · exact hdisj q hq1 r (List.mem_cons_of_mem _ hr)
                      · have hq3 : q = (s, buildProp pf) := by simpa using hq2
                        subst hq3
                        intro hcontra
                        apply hfresh
                        rw [show s = r.1 from hcontra]
                        exact List.mem_map_of_mem Prod.fst hr
                    simp only [convertParamsAux, hout]
                    rw [hdictSet]
                    rw [ih (props ++ [(s, buildProp pf)])
                          (if pyTruthy ((jget pf "required").getD (JVal.bool false)) then
                            reqs ++ [JVal.str s] else reqs)
                          hshapeRest hnodupRest hdisjRest]
                    cases hrq : pyTruthy ((jget pf "required").getD (JVal.bool false)) <;>
                      simp [hrq]

/-- C10: in the tool-listing transform's list-form schema conversion, a
parameter whose `name` is missing or empty is silently dropped — it appears
neither in `properties` nor in `required` — while every other parameter is
converted normally, in order. -/
theorem claim_c10_falsy_names_dropped (params : List JVal)
    (hshape : ∀ p ∈ params, paramNameShapeOk p = true)
    (hkeys : ((params.filterMap claimPropContrib).map Prod.fst).Nodup) :
    convertParams params
      = some (params.filterMap claimPropContrib, params.filterMap claimReqContrib)
    ∧ (∀ p ∈ params, paramNameMissingOrEmpty p = true →
        claimPropContrib p = none ∧ claimReqContrib p = none) := by
  constructor
  · have h := convertParamsAux_filterMap params [] [] hshape hkeys (by simp)
    simpa [convertParams] using h
  · intro p _ hme
    cases p with
    | obj pf =>
        cases hname : jget pf "name" with
        | none => simp [claimPropContrib, claimReqContrib, hname]
        | some v =>
            cases v with
            | str s =>
                have hs : s = "" := by
                  simpa [paramNameMissingOrEmpty, hname] using hme
                subst hs
                simp [claimPropContrib, claimReqContrib, hname]
            | null => simp [claimPropContrib, claimReqContrib, hname]
            | bool b => simp [claimPropContrib, claimReqContrib, hname]
            | num n => simp [claimPropContrib, claimReqContrib, hname]
            | arr xs => simp [claimPropContrib, claimReqContrib, hname]
            | obj fs2 => simp [claimPropContrib, claimReqContrib, hname]
    | null => simp [claimPropContrib, claimReqContrib]
    | bool b => simp [claimPropContrib, claimReqContrib]
    | num n => simp [claimPropContrib, claimReqContrib]
    | str s => simp [claimPropContrib, claimReqContrib]
    | arr xs => simp [claimPropContrib, claimReqContrib]

/-- Concrete parameter list for the C10 witness: one nameless parameter, one
empty-named, and two normal ones (one required, one with description and
default). -/
def c10Params : List JVal :=
  [JVal.obj [("type", JVal.str "number")],
   JVal.obj [("name", JVal.str ""), ("type", JVal.str "integer")],
   JVal.obj [("name", JVal.str "q"), ("type", JVal.str "string"),
     ("required", JVal.bool true)],
   JVal.obj [("name", JVal.str "r"), ("description", JVal.str "doc"),
     ("default", JVal.str "v")]]

/-- Witness for C10: on `c10Params` the two falsy-named entries vanish and
the two named ones are converted in order. -/
theorem claim_c10_witness :
    (∀ p ∈ c10Params, paramNameShapeOk p = true)
    ∧ ((c10Params.filterMap claimPropContrib).map Prod.fst).Nodup
    ∧ convertParams c10Params
        = some (c10Params.filterMap claimPropContrib,
                c10Params.filterMap claimReqContrib)
    ∧ convertParams c10Params
        = some ([("q", JVal.obj [("type", JVal.str "string")]),
                 ("r", JVal.obj [("type", JVal.str "string"),
                   ("description", JVal.str "doc"), ("default", JVal.str "v")])],
                [JVal.str "q"])
    ∧ (∀ p ∈ c10Params, paramNameMissingOrEmpty p = true →
        claimPropContrib p = none ∧ claimReqContrib p = none) := by
  have h := claim_c10_falsy_names_dropped c10Params (by decide) (by decide)
  exact ⟨by decide, by decide, h.1, h.1.trans rfl, h.2⟩

/-- C2 claim side, written from the claim's words: a counted-pattern line
becomes the counted sample (the claim's two-pass search is unaware of the
zero-total raise). -/
def countedProgress (line : String) : Option ProgressSample :=
  (countedHit line).map (fun p => ProgressSample.counted p.1 p.2)

/-- C2 claim side: the topic-progress check alone. -/
def topicProgress (line : String) : Option ProgressSample :=
  let cs := line.toList
  if containsSub ("topic".toList) (cs.map pyLowerChar) &&
      containsSub ("/".toList) cs then
    some (.topicRaw line)
  else none

/-- C2 claim side: the two-pass search the claim describes — the whole
window most-recent-first for the counted pattern, and only failing that
over the whole window, again for a topic-progress line. -/
def claimedTwoPassExtract (lines : List String) : Option ProgressSample :=
  match lines.reverse.findSome? countedProgress with
  | some s => some s
  | none => lines.reverse.findSome? topicProgress

/-- C2 counterexample: with an older counted-pattern line and a more recent
topic line in the window, the code returns the topic line, while the
claimed two-pass order would return the counted sample. -/
theorem claim_c2_counterexample :
    _extract_progress ["Step 1: (total 1/2)", "building topic 3/4"]
        = ProgressResult.found (ProgressSample.topicRaw "building topic 3/4")
    ∧ claimedTwoPassExtract ["Step 1: (total 1/2)", "building topic 3/4"]
        = some (ProgressSample.counted 1 2)
    ∧ _extract_progress ["Step 1: (total 1/2)", "building topic 3/4"]
        ≠ ProgressResult.found (ProgressSample.counted 1 2) := by
  decide

/-- The per-line loop body as an optional signal: `none` exactly when the
loop moves on to the next line. -/
def lineSignal (line : String) : Option ProgressResult :=
  match lineProgress line with
  | .noMatch => none
  | .found s => some (.found s)
  | .raised => some .raised

/-- Helper for C2: the source loop is the first signal of the per-line body
over the reversed window. -/
lemma extractLoop_eq_findSome (ls : List String) :
    extractLoop ls = (ls.findSome? lineSignal).getD ProgressResult.noMatch := by
  induction ls with
  | nil => rfl
  | cons l rest ih =>
      rw [List.findSome?_cons]
      cases h : lineProgress l <;>
        simp only [extractLoop, lineSignal, h, ih, Option.getD_some]

/-- C2 (amended): progress extraction makes a single most-recent-first pass;
each line is checked first against the counted pattern and then for a topic
mention, and the first line yielding either a sample or the zero-total
raise decides the call (so a more recent topic line beats an older counted
line); any outcome other than no-match comes from a line of the window; a
returned counted sample has a non-zero total and percentage
current/total·100, while a counted match with zero total raises
`ZeroDivisionError` instead of producing a sample. -/
theorem claim_c2_single_pass (lines : List String) :
    _extract_progress lines
        = (lines.reverse.findSome? lineSignal).getD ProgressResult.noMatch
    ∧ (∀ s, _extract_progress lines = ProgressResult.found s →
        ∃ l ∈ lines, lineProgress l = ProgressResult.found s)
    ∧ (_extract_progress lines = ProgressResult.raised →
        ∃ l ∈ lines, lineProgress l = ProgressResult.raised)
    ∧ (∀ line (c t : Nat),
        lineProgress line = ProgressResult.found (ProgressSample.counted c t) →
        t ≠ 0 ∧ (ProgressSample.counted c t).percentage = (c : ℚ) / (t : ℚ) * 100)
    ∧ (∀ line (c : Nat), countedHit line = some (c, 0) →
        lineProgress line = ProgressResult.raised) := by
  refine ⟨extractLoop_eq_findSome lines.reverse, fun s hs => ?_, fun hr => ?_,
    fun line c t hf => ?_, fun line c hc => ?_⟩
  · obtain ⟨l, hl, he⟩ :=
      extractLoop_mem lines.reverse (ProgressResult.found s) (by simp) hs
    exact ⟨l, List.mem_reverse.mp hl, he⟩
  · obtain ⟨l, hl, he⟩ :=
      extractLoop_mem lines.reverse ProgressResult.raised (by simp) hr
    exact ⟨l, List.mem_reverse.mp hl, he⟩
  · refine ⟨?_, rfl⟩
    cases hch : countedHit line with
    | none =>
        simp only [lineProgress, hch] at hf
        split at hf <;> simp at hf
    | some p =>
        obtain ⟨c2, t2⟩ := p
        simp only [lineProgress, hch] at hf
        split at hf
        · simp at hf
        · rename_i ht2
          simp only [ProgressResult.found.injEq, ProgressSample.counted.injEq] at hf
          exact hf.2 ▸ ht2
  · simp [lineProgress, hc]

/-- Witness for C2 (amended): a one-line window with a counted match, and a
zero-total counted match that raises. -/
theorem claim_c2_witness :
    (_extract_progress ["done (total 3/4)"]
        = ProgressResult.found (ProgressSample.counted 3 4)
      ∧ (∃ l ∈ ["done (total 3/4)"],
          lineProgress l = ProgressResult.found (ProgressSample.counted 3 4)))
    ∧ (countedHit "x total 3/0" = some (3, 0)
      ∧ lineProgress "x total 3/0" = ProgressResult.raised) :=
  ⟨⟨by decide,
    (claim_c2_single_pass ["done (total 3/4)"]).2.1 (ProgressSample.counted 3 4)
      (by decide)⟩,
   ⟨by decide,
    (claim_c2_single_pass ["done (total 3/4)"]).2.2.2.2 "x total 3/0" 3 (by decide)⟩⟩

/-- Witness for C8 at a 501-character error message. -/
theorem claim_c8_witness :
    (List.replicate 501 'a').length > 500
    ∧ (slackErrorText (some (List.replicate 501 'a'))
        = some (("*Error:*\n```".toList)
            ++ ((List.replicate 501 'a').take 500 ++ ("...".toList)) ++ ("```".toList))
      ∧ ((List.replicate 501 'a').take 500).length = 500
      ∧ (List.replicate 501 'a').take 500 <+: List.replicate 501 'a') :=
  ⟨by rw [List.length_replicate]; decide, claim_c8_error_truncated _ (by rw [List.length_replicate]; decide)⟩

end DFCloud
